import Mathlib

/-!
Verification of the iterator/handle subsystem of `advanced_module.c`
(python-c-api-example).

The embedding translates the C functions into pure Lean functions:
machine `long`/`int` fields become `Int` (no claim here hinges on
overflow), stateful C code becomes explicit state passing, and fallible
operations return `Except`.
-/

/-- Embeds the `RangeIterator` struct of `advanced_module.c`
(fields `current`, `stop`, `step`, all C `long`). -/
structure RangeIterator where
  current : Int
  stop : Int
  step : Int
deriving DecidableEq, Repr

/-- Result of one pull on the iterator: `Value v` models
`PyInt_FromLong(value)`, `End` models raising `StopIteration`
(returning NULL with the StopIteration error set). -/
inductive PullResult where
  | Value : Int → PullResult
  | End : PullResult
deriving DecidableEq, Repr

/-- Embeds `RangeIterator_next`: if `current >= stop` raise
`StopIteration`; otherwise return the pre-advance `current` and add
`step` to `current`.  Note the exhaustion test is `current >= stop`
regardless of the sign of `step`. -/
def RangeIterator_next (self : RangeIterator) : PullResult × RangeIterator :=
  if self.current ≥ self.stop then
    (PullResult.End, self)
  else
    (PullResult.Value self.current, { self with current := self.current + self.step })

/-- Embeds `create_range_iterator` after successful argument parsing:
the fields are stored with no validation whatsoever (in particular
`step = 0` is accepted).  The C default `step = 1` is applied by the
argument parser when the third argument is absent. -/
def create_range_iterator (start stop step : Int) : RangeIterator :=
  { current := start, stop := stop, step := step }

/-- Pull `n` times in sequence, collecting the `n` results and the
final iterator state. -/
def pulls : Nat → RangeIterator → List PullResult × RangeIterator
  | 0, s => ([], s)
  | Nat.succ n, s =>
    let r := RangeIterator_next s
    let rest := pulls n r.2
    (r.1 :: rest.1, rest.2)

/-- Embeds the `iterate_object` loop of `advanced_module.c`
specialised to a `RangeIterator` with positive step (the loop
`while ((item = PyIter_Next(iterator))) PyList_Append(result, item);`
run until `StopIteration`); the positivity hypothesis is exactly what
makes the C loop terminate. -/
def drainPos (s : RangeIterator) (hstep : 0 < s.step) : List Int :=
  if _h : s.current ≥ s.stop then
    []
  else
    s.current :: drainPos { s with current := s.current + s.step } hstep
termination_by (s.stop - s.current).toNat
decreasing_by
  simp_wf
  omega

/-- The integer interval `[start, stop)` as an ordered list. -/
def intRange (start stop : Int) : List Int :=
  (List.range (stop - start).toNat).map (fun i => start + Int.ofNat i)

/-- Outcome of one `PyIter_Next` call on an arbitrary iterable, as the
`iterate_object` loop observes it: an item, a clean end of iteration
(NULL with no error set), or a failure (NULL with an error set). -/
inductive PullOutcome where
  | value : Int → PullOutcome
  | stopSignal : PullOutcome
  | errorSignal : String → PullOutcome
deriving DecidableEq, Repr

/-- Embeds `iterate_object` of `advanced_module.c` over an abstract
stream of pull outcomes: append each item to the result list; when the
loop ends, if an error occurred the partially built list is discarded
(`Py_DECREF(result)`) and the error is surfaced, otherwise the
collected list is returned. -/
def iterate_object : List PullOutcome → List Int → Except String (List Int)
  | [], acc => Except.ok acc
  | PullOutcome.value v :: rest, acc => iterate_object rest (acc ++ [v])
  | PullOutcome.stopSignal :: _, acc => Except.ok acc
  | PullOutcome.errorSignal e :: _, _ => Except.error e

/- ------------------------------------------------------------------
Helper lemmas about the iterator.
------------------------------------------------------------------ -/

theorem next_of_ge (s : RangeIterator) (h : s.current ≥ s.stop) :
    RangeIterator_next s = (PullResult.End, s) := by
  simp [RangeIterator_next, h]

theorem next_of_lt (s : RangeIterator) (h : s.current < s.stop) :
    RangeIterator_next s =
      (PullResult.Value s.current, { s with current := s.current + s.step }) := by
  simp [RangeIterator_next, not_le.mpr h]

theorem pulls_of_exhausted (t : RangeIterator) (ht : t.current ≥ t.stop) :
    ∀ n : Nat, pulls n t = (List.replicate n PullResult.End, t) := by
  intro n
  induction n with
  | zero => simp [pulls]
  | succ n ih => simp [pulls, next_of_ge t ht, ih, List.replicate_succ]

theorem intRange_nil (start stop : Int) (h : stop ≤ start) :
    intRange start stop = [] := by
  have h0 : (stop - start).toNat = 0 := by omega
  simp [intRange, h0]

theorem intRange_cons (start stop : Int) (h : start < stop) :
    intRange start stop = start :: intRange (start + 1) stop := by
  have h1 : (stop - start).toNat = (stop - (start + 1)).toNat + 1 := by omega
  rw [intRange, h1, List.range_succ_eq_map]
  rw [List.map_cons, List.map_map, intRange]
  congr 1
  · simp
  · apply List.map_congr_left
    intro i _
    simp [Function.comp]
    omega

theorem drainPos_eq_intRange (n : Nat) :
    ∀ s : RangeIterator, ∀ hstep : 0 < s.step, s.step = 1 →
    (s.stop - s.current).toNat = n → drainPos s hstep = intRange s.current s.stop := by
  induction n with
  | zero =>
    intro s hstep h1 hn
    have hge : s.current ≥ s.stop := by omega
    rw [drainPos.eq_def, dif_pos hge, intRange_nil _ _ hge]
  | succ n ih =>
    intro s hstep h1 hn
    have hlt : s.current < s.stop := by omega
    have hne : ¬ s.current ≥ s.stop := not_le.mpr hlt
    rw [drainPos.eq_def, dif_neg hne]
    have hrec := ih { s with current := s.current + s.step } hstep h1 (by simp; omega)
    rw [hrec]
    simp only [h1]
    exact (intRange_cons s.current s.stop hlt).symm

theorem iterate_object_append (vs : List Int) :
    ∀ (rest : List PullOutcome) (acc : List Int),
    iterate_object (vs.map PullOutcome.value ++ rest) acc =
      iterate_object rest (acc ++ vs) := by
  induction vs with
  | nil => intro rest acc; simp
  | cons v vs ih =>
    intro rest acc
    have h2 : acc ++ [v] ++ vs = acc ++ v :: vs := by simp
    calc iterate_object (List.map PullOutcome.value (v :: vs) ++ rest) acc
        = iterate_object (List.map PullOutcome.value vs ++ rest) (acc ++ [v]) := by
          simp [iterate_object]
      _ = iterate_object rest (acc ++ [v] ++ vs) := ih rest (acc ++ [v])
      _ = iterate_object rest (acc ++ v :: vs) := by rw [h2]

/- ------------------------------------------------------------------
Capsule (opaque handle) embedding.
------------------------------------------------------------------ -/

/-- Size of the fixed `char name[50]` buffer in the C `Point` struct. -/
def NAME_BUF_SIZE : Nat := 50

/-- Embeds the C `Point` struct (`int x; int y; char name[50];`); the
`name` field holds the bytes stored up to the terminating NUL. -/
structure Point where
  x : Int
  y : Int
  name : List Char
deriving DecidableEq, Repr

/-- Errors the handle operations can report: `TypeMismatch` models the
error CPython raises when `PyCapsule_GetPointer` is called with a name
that differs from the capsule's, `UseAfterRelease` models access to a
handle whose payload has already been released. -/
inductive HandleError where
  | TypeMismatch : HandleError
  | UseAfterRelease : HandleError
deriving DecidableEq, Repr

/-- Embeds a capsule: a tag string plus the owned payload.  The
payload is `some` while the handle is live and `none` once the payload
has been freed (the release tracking follows the spec's handle
lifecycle, since the host runtime's capsule bookkeeping is outside
this repository's sources). -/
structure Capsule where
  tag : String
  payload : Option Point
deriving DecidableEq, Repr

/-- Models `PyCapsule_GetPointer(capsule, name)` (host-runtime
collaborator): returns the stored pointer when `name` equals the
capsule's tag, and fails otherwise; a matching access to a released
payload is a use-after-release. -/
def PyCapsule_GetPointer (c : Capsule) (name : String) : Except HandleError Point :=
  if c.tag = name then
    match c.payload with
    | some p => Except.ok p
    | none => Except.error HandleError.UseAfterRelease
  else
    Except.error HandleError.TypeMismatch

/-- Models the `strncpy(point->name, name, sizeof(point->name) - 1)`
followed by `point->name[sizeof(point->name) - 1] = 0` of
`create_point_capsule`: at most `NAME_BUF_SIZE - 1` characters are
stored and the buffer is always terminated, so the stored string is
the first `NAME_BUF_SIZE - 1` characters of the input. -/
def strncpy_store (name : List Char) : List Char :=
  name.take (NAME_BUF_SIZE - 1)

/-- Embeds `create_point_capsule` after successful argument parsing
and allocation: fill the Point fields (truncating the name), then wrap
the pointer in a capsule tagged `Point` with `point_destructor` bound
as destructor. -/
def create_point_capsule (x y : Int) (name : List Char) : Capsule :=
  { tag := "Point", payload := some { x := x, y := y, name := strncpy_store name } }

/-- The read-only view `get_point_data` builds with
`Py_BuildValue("\x7bs:i,s:i,s:s\x7d", ...)`: a fresh record of the two
integers and the name string. -/
structure PointData where
  x : Int
  y : Int
  name : List Char
deriving DecidableEq, Repr

/-- Embeds `get_point_data` generalised to the spec's
`read_handle(h, expected_tag)` interface: fetch the pointer with the
expected tag via `PyCapsule_GetPointer` (the C function passes the
fixed tag `Point`), and on success build the `{x, y, name}` view.  The
capsule is returned alongside to make explicit that the read leaves
the handle untouched. -/
def read_handle (c : Capsule) (expected : String) : Except HandleError PointData × Capsule :=
  match PyCapsule_GetPointer c expected with
  | Except.ok p => (Except.ok { x := p.x, y := p.y, name := p.name }, c)
  | Except.error e => (Except.error e, c)

/-- Embeds `get_point_data` itself, which always reads with the
capsule tag `Point`. -/
def get_point_data (c : Capsule) : Except HandleError PointData × Capsule :=
  read_handle c "Point"

/-- Embeds `point_destructor`: fetch the pointer with tag `Point`; if
it is present (`point != NULL`), free it (`PyMem_Free`); otherwise do
nothing. -/
def point_destructor (c : Capsule) : Capsule :=
  match PyCapsule_GetPointer c "Point" with
  | Except.ok _ => { c with payload := none }
  | Except.error _ => c

/-- Modelled from the spec: the handle-destruction machinery lives in
the host runtime, not in this repository's sources (CPython invokes
the bound capsule destructor when the handle is destroyed).  Following
the spec's destroy contract, destroying a live handle invokes the
bound release callback (`point_destructor`) once; destroying an
already-released handle is a no-op.  The returned number counts how
many times the release callback ran during this call. -/
def destroy_handle (c : Capsule) : Capsule × Nat :=
  match c.payload with
  | some _ => (point_destructor c, 1)
  | none => (c, 0)

/- ------------------------------------------------------------------
Claim theorems.
------------------------------------------------------------------ -/

/-- Claim C1 (counterexample): at the iterator built by
`make_iterator(10, 0, -1)` — step < 0 and current > stop — the claim
says the pull returns a Value, but `RangeIterator_next` returns `End`:
the exhaustion test `current >= stop` ignores the step sign. -/
theorem descending_first_pull_counterexample :
    (create_range_iterator 10 0 (-1)).step < 0 ∧
    (create_range_iterator 10 0 (-1)).current > (create_range_iterator 10 0 (-1)).stop ∧
    (RangeIterator_next (create_range_iterator 10 0 (-1))).1 = PullResult.End := by
  decide

/-- Claim C1 (amended): for every iterator with step < 0, a pull
returns `End` exactly when `current >= stop` (the same test as for
positive step); when `current < stop` the pull returns
`Value(current)` and adds step, and the new current is again below
stop, so the iterator never becomes exhausted. -/
theorem descending_iterator_behaviour (s : RangeIterator) (hstep : s.step < 0) :
    (s.current ≥ s.stop → RangeIterator_next s = (PullResult.End, s)) ∧
    (s.current < s.stop →
      RangeIterator_next s =
        (PullResult.Value s.current, { s with current := s.current + s.step }) ∧
      s.current + s.step < s.stop) := by
  refine ⟨next_of_ge s, fun hlt => ⟨next_of_lt s hlt, by omega⟩⟩

/-- Witness for the amended C1 theorem at `make_iterator(10, 0, -1)`. -/
theorem descending_iterator_behaviour_witness :
    RangeIterator_next (create_range_iterator 10 0 (-1)) =
      (PullResult.End, create_range_iterator 10 0 (-1)) :=
  (descending_iterator_behaviour (create_range_iterator 10 0 (-1)) (by decide)).1 (by decide)

/-- Claim C2: draining an iterator built with step = 1 yields exactly
`start, start+1, …, stop-1` (empty when `start >= stop`), and every
non-exhausted pull returns the pre-advance current and then adds step
to current. -/
theorem step_one_drain_yields_intRange :
    (∀ start stop : Int, ∀ hstep : 0 < (create_range_iterator start stop 1).step,
      drainPos (create_range_iterator start stop 1) hstep = intRange start stop ∧
      (start ≥ stop → intRange start stop = [])) ∧
    (∀ t : RangeIterator, t.current < t.stop →
      RangeIterator_next t =
        (PullResult.Value t.current, { t with current := t.current + t.step })) := by
  constructor
  · intro start stop hstep
    exact ⟨drainPos_eq_intRange (stop - start).toNat _ hstep rfl rfl,
      fun hge => intRange_nil _ _ hge⟩
  · exact next_of_lt

/-- Witness for C2 at `make_iterator(0, 3, 1)`: the drain yields
`[0, 1, 2]` and the first pull yields `Value 0` advancing current. -/
theorem step_one_drain_yields_intRange_witness :
    drainPos (create_range_iterator 0 3 1) (by decide) = intRange 0 3 ∧
    intRange 0 3 = [0, 1, 2] ∧
    RangeIterator_next (create_range_iterator 0 3 1) =
      (PullResult.Value 0, create_range_iterator 1 3 1) := by
  refine ⟨(step_one_drain_yields_intRange.1 0 3 (by decide)).1, by decide, ?_⟩
  rw [step_one_drain_yields_intRange.2 (create_range_iterator 0 3 1) (by decide)]
  decide

/-- Claim C3: the spec requires `make_iterator(0, 5, 0)` to fail with
`InvalidArgument`; the code performs no step validation and returns a
fresh iterator storing step 0 (the spec itself flags this missing
guard as a latent defect of the source). -/
theorem zero_step_construction_succeeds :
    create_range_iterator 0 5 0 = { current := 0, stop := 5, step := 0 } := rfl

/-- Claim C4: exhaustion is terminal — once a pull has returned `End`,
every later pull (any number of them) returns `End` again and the
state never changes, so the iterator cannot return to the Active
state. -/
theorem end_is_terminal (s t : RangeIterator)
    (h : RangeIterator_next s = (PullResult.End, t)) (n : Nat) :
    pulls n t = (List.replicate n PullResult.End, t) := by
  by_cases hge : s.current ≥ s.stop
  · rw [next_of_ge s hge] at h
    simp only [Prod.mk.injEq, true_and] at h
    exact pulls_of_exhausted t (h ▸ hge) n
  · rw [next_of_lt s (not_le.mp hge)] at h
    simp only [Prod.mk.injEq] at h
    exact absurd h.1 (by simp)

/-- Witness for C4: an iterator at its bound returns `End` and three
further pulls all return `End` with unchanged state. -/
theorem end_is_terminal_witness :
    pulls 3 (create_range_iterator 5 5 1) =
      (List.replicate 3 PullResult.End, create_range_iterator 5 5 1) :=
  end_is_terminal (create_range_iterator 5 5 1) (create_range_iterator 5 5 1) (by decide) 3

/-- Claim C5: reading a freshly created handle with the matching tag
returns exactly the payload it was created with; any name shorter than
the fixed buffer is returned unchanged. -/
theorem handle_roundtrip (x y : Int) (name : List Char)
    (h : name.length < NAME_BUF_SIZE) :
    (read_handle (create_point_capsule x y name) "Point").1 =
      Except.ok { x := x, y := y, name := name } := by
  have ht : strncpy_store name = name := by
    rw [strncpy_store]
    exact List.take_of_length_le (by omega)
  simp [read_handle, create_point_capsule, PyCapsule_GetPointer, ht]

/-- Witness for C5: `read_handle(make_handle(3, 4, "origin", "Point"),
"Point")` returns `{x:3, y:4, name:"origin"}`. -/
theorem handle_roundtrip_witness :
    (read_handle (create_point_capsule 3 4 "origin".data) "Point").1 =
      Except.ok { x := 3, y := 4, name := "origin".data } :=
  handle_roundtrip 3 4 "origin".data (by decide)

/-- Claim C6: for every name, handle creation stores at most
`NAME_BUF_SIZE - 1 = 49` characters and reading back returns exactly
the first 49 characters of the name; creation never rejects the
input. -/
theorem name_truncation (x y : Int) (name : List Char) :
    (read_handle (create_point_capsule x y name) "Point").1 =
      Except.ok { x := x, y := y, name := name.take (NAME_BUF_SIZE - 1) } ∧
    (name.take (NAME_BUF_SIZE - 1)).length ≤ NAME_BUF_SIZE - 1 := by
  constructor
  · simp [read_handle, create_point_capsule, PyCapsule_GetPointer, strncpy_store]
  · rw [List.length_take]
    omega

/-- Claim C7: reading a live handle with any tag different from its
own fails with `TypeMismatch` and leaves the handle untouched; a
subsequent read with the correct tag still returns the original
payload. -/
theorem tag_mismatch_read (c : Capsule) (p : Point) (expected : String)
    (hlive : c.payload = some p) (hne : expected ≠ c.tag) :
    read_handle c expected = (Except.error HandleError.TypeMismatch, c) ∧
    (read_handle c c.tag).1 = Except.ok { x := p.x, y := p.y, name := p.name } := by
  constructor
  · have hne2 : c.tag ≠ expected := fun h2 => hne h2.symm
    simp [read_handle, PyCapsule_GetPointer, hne2]
  · simp [read_handle, PyCapsule_GetPointer, hlive]

/-- Witness for C7: `read_handle(h, "NotPoint")` on a fresh Point
handle fails with `TypeMismatch` and the follow-up read with the
correct tag still succeeds with the original payload. -/
theorem tag_mismatch_read_witness :
    read_handle (create_point_capsule 3 4 "origin".data) "NotPoint" =
      (Except.error HandleError.TypeMismatch, create_point_capsule 3 4 "origin".data) ∧
    (read_handle (create_point_capsule 3 4 "origin".data)
        (create_point_capsule 3 4 "origin".data).tag).1 =
      Except.ok { x := 3, y := 4, name := ("origin".data).take (NAME_BUF_SIZE - 1) } :=
  tag_mismatch_read (create_point_capsule 3 4 "origin".data)
    { x := 3, y := 4, name := ("origin".data).take (NAME_BUF_SIZE - 1) }
    "NotPoint" rfl (by decide)

/-- Claim C8: destroying a handle twice in a row runs the bound
release callback exactly once across the two calls (the second call is
a no-op on the already-released payload), so the payload is never
double-freed. -/
theorem double_destroy_releases_once (x y : Int) (name : List Char) :
    (destroy_handle (create_point_capsule x y name)).2 +
      (destroy_handle (destroy_handle (create_point_capsule x y name)).1).2 = 1 ∧
    (destroy_handle (destroy_handle (create_point_capsule x y name)).1).1.payload = none := by
  simp [destroy_handle, create_point_capsule, point_destructor, PyCapsule_GetPointer]

/-- Claim C9: the drain loop is fail-fast — if the stream fails
mid-iteration the partially collected values are discarded and that
error is returned; on a clean end all pulled values are returned in
pull order. -/
theorem drain_fail_fast (vs : List Int) (e : String) (rest : List PullOutcome) :
    iterate_object (vs.map PullOutcome.value ++ PullOutcome.errorSignal e :: rest) [] =
      Except.error e ∧
    iterate_object (vs.map PullOutcome.value ++ PullOutcome.stopSignal :: rest) [] =
      Except.ok vs := by
  constructor
  · rw [iterate_object_append]
    rfl
  · rw [iterate_object_append]
    simp [iterate_object]

/-- Claim C10: an iterator with step = 0 and current < stop is stuck
Active — every pull returns `Value(current)` and leaves the whole
state unchanged, for any number of pulls, so a drain of it never
reaches `End`. -/
theorem zero_step_active_forever (s : RangeIterator) (h0 : s.step = 0)
    (hlt : s.current < s.stop) (n : Nat) :
    pulls n s = (List.replicate n (PullResult.Value s.current), s) := by
  induction n with
  | zero => simp [pulls]
  | succ n ih =>
    have hnext : RangeIterator_next s = (PullResult.Value s.current, s) := by
      rw [next_of_lt s hlt]
      have h2 : s.current + s.step = s.current := by omega
      rw [h2]
    simp [pulls, hnext, ih, List.replicate_succ]

/-- Witness for C10 at `make_iterator(0, 5, 0)`: three pulls all
return `Value 0` and the state is unchanged. -/
theorem zero_step_active_forever_witness :
    pulls 3 (create_range_iterator 0 5 0) =
      (List.replicate 3 (PullResult.Value 0), create_range_iterator 0 5 0) :=
  zero_step_active_forever (create_range_iterator 0 5 0) rfl (by decide) 3
